import Mathlib

/-!
Verification of the mcp-dashboard configuration service.

The development shallowly embeds the two source modules:
* `src/server/routes/config.ts` — the Express config router (five routes,
  validation gate on POST, try/catch error translation);
* `src/client/src/services/api.ts` — the browser HTTP wrapper around
  `fetch`, in particular `handleResponse`.

The `ConfigManager` service itself (path lookup, schema validation,
load/save with timestamped backups) is not part of the available sources;
its operations are modelled from the specification and are marked as such
in their doc comments.  JSON values carried by requests and responses are
modelled by the inductive `JsonValue`; JavaScript property access, which
throws a `TypeError` on `null`, is modelled by `jsGet` returning `Except`.
-/

/-- A JSON value as parsed by `express.json()` / `Response.json()`.
Objects keep their fields as ordered association lists; numbers are
modelled by integers (no claim depends on float behaviour). -/
inductive JsonValue where
  | null
  | bool (b : Bool)
  | num (n : Int)
  | str (s : String)
  | arr (items : List JsonValue)
  | obj (fields : List (String × JsonValue))

/-- First binding of key `k` in an object field list (JS object semantics:
the earliest binding wins for lookup). -/
def lookupField (fields : List (String × JsonValue)) (k : String) : Option JsonValue :=
  (fields.find? (fun p => p.1 == k)).map (fun p => p.2)

/-- Non-throwing field projection: `none` plays the role of JS `undefined`
(missing field, or property access on a primitive). -/
def jsField (v : JsonValue) (k : String) : Option JsonValue :=
  match v with
  | .obj fields => lookupField fields k
  | _ => none

/-- JavaScript property access `v.k`: throws a `TypeError` when `v` is
`null`; otherwise yields the field value or `undefined` (`none`). -/
def jsGet (v : JsonValue) (k : String) : Except String (Option JsonValue) :=
  match v with
  | .null => .error ("Cannot read properties of null (reading " ++ k ++ ")")
  | .obj fields => .ok (lookupField fields k)
  | _ => .ok none

/-- JavaScript truthiness of a JSON value (`undefined` is handled by the
callers via `Option`). -/
def jsTruthy : JsonValue → Bool
  | .null => false
  | .bool b => b
  | .num n => !(n == 0)
  | .str s => !(s == "")
  | .arr _ => true
  | .obj _ => true

/-- JavaScript string conversion `String(v)`, as applied by the `Error`
constructor to a non-string argument. -/
def jsToString : JsonValue → String
  | .null => "null"
  | .bool true => "true"
  | .bool false => "false"
  | .num n => toString n
  | .str s => s
  | .arr items => String.intercalate "," (items.map (fun v =>
      match v with
      | .null => ""
      | .bool true => "true"
      | .bool false => "false"
      | .num n => toString n
      | .str s => s
      | .arr _ => ""
      | .obj _ => "[object Object]"))
  | .obj _ => "[object Object]"

/-- Result shape returned by `ConfigManager.validateConfig`. -/
structure ValidationResult where
  valid : Bool
  errors : List String

/-- Modelled from the spec: the schema check for a single `ServerConfig`
entry, `\x7b command: string, args?: string[], env?: map<string,string>,
disabled?: bool \x7d`. -/
def validServerConfig (v : JsonValue) : Bool :=
  match v with
  | .obj fields =>
    (match lookupField fields "command" with
     | some (.str _) => true
     | _ => false)
    && (match lookupField fields "args" with
     | none => true
     | some (.arr items) => items.all (fun a => match a with | .str _ => true | _ => false)
     | some _ => false)
    && (match lookupField fields "env" with
     | none => true
     | some (.obj entries) => entries.all (fun p => match p.2 with | .str _ => true | _ => false)
     | some _ => false)
    && (match lookupField fields "disabled" with
     | none => true
     | some (.bool _) => true
     | some _ => false)
  | _ => false

/-- Modelled from the spec: `ConfigManager.validateConfig` (absent from the
available sources) checks the `MCPConfig` shape
`\x7b mcpServers: map<name, ServerConfig> \x7d` with a schema library and
returns a verdict plus a list of errors; it never modifies the
configuration.  The argument is the `mcpServers` field extracted by the
route (`none` models JS `undefined`). -/
def validateConfig (mcp : Option JsonValue) : ValidationResult :=
  match mcp with
  | none => ⟨false, ["mcpServers is required"]⟩
  | some (.obj servers) =>
    let errs := servers.foldr
      (fun p acc => if validServerConfig p.2 then acc else (p.1 ++ ": invalid server configuration") :: acc) []
    ⟨errs.isEmpty, errs⟩
  | some _ => ⟨false, ["mcpServers must be an object"]⟩

/-- The persistent state visible across requests: the configuration file
(absent or with JSON content) and the accumulated backup files. -/
structure FsState where
  path : String
  configFile : Option JsonValue
  backups : List (String × JsonValue)

/-- Modelled from the spec: `ConfigManager.saveConfig` (absent from the
available sources) writes the configuration back wholesale; before each
overwrite it creates a backup copy of the prior file content named
`<file>.backup.<timestamp>`, and never removes existing backups. -/
def saveConfigFs (st : FsState) (now : Nat) (cfg : JsonValue) : FsState :=
  match st.configFile with
  | some old =>
    { st with
      configFile := some cfg
      backups := (st.path ++ ".backup." ++ toString now, old) :: st.backups }
  | none => { st with configFile := some cfg }

/-- Modelled from the spec: `ConfigManager.loadConfig` (absent from the
available sources) reads the file and returns only the `mcpServers`
portion, as an `MCPConfig` object (the separate `loadFullConfig` returns
the non-`mcpServers` fields as well); a missing file or field yields an
empty server map. -/
def loadConfigFs (st : FsState) : JsonValue :=
  match st.configFile with
  | none => .obj [("mcpServers", .obj [])]
  | some v => .obj [("mcpServers", (jsField v "mcpServers").getD (.obj []))]

/-- Modelled from the spec: `ConfigManager.loadFullConfig` (absent from the
available sources) reads and returns the whole file content, including
non-`mcpServers` fields. -/
def loadFullConfigFs (st : FsState) : JsonValue :=
  st.configFile.getD (.obj [])

/-- Modelled from the spec: `ConfigManager.getActiveConfigInfo` (absent
from the available sources) reports the active platform-specific file
location. -/
def configInfoFs (st : FsState) : JsonValue :=
  .obj [("path", .str st.path), ("exists", .bool st.configFile.isSome)]

/-- An HTTP response as produced by the router: status code and JSON body. -/
structure HttpResponse where
  status : Nat
  body : JsonValue

/-- The `\x7b success: false, message \x7d` body built by every catch
branch of the router. -/
def errorBody (msg : String) : JsonValue :=
  .obj [("success", .bool false), ("message", .str msg)]

/-- Outcome of an underlying I/O operation: success, or a thrown error with
its message.  Used to close the handlers over the behaviour of the
`ConfigManager` calls they await. -/
inductive Outcome where
  | ok
  | fail (msg : String)

/-- Runs a pure manager result under an I/O outcome. -/
def withOutcome (o : Outcome) (v : α) : Except String α :=
  match o with
  | .ok => .ok v
  | .fail m => .error m

/-- `router.get("/config")` from `config.ts`: on success respond with the
loaded config, on a thrown error respond 500 with
`Failed to load config: <message>`. -/
def getConfigHandler (r : Except String JsonValue) : HttpResponse :=
  match r with
  | .ok c => ⟨200, c⟩
  | .error m => ⟨500, errorBody ("Failed to load config: " ++ m)⟩

/-- `router.get("/config/full")` from `config.ts`. -/
def getFullConfigHandler (r : Except String JsonValue) : HttpResponse :=
  match r with
  | .ok c => ⟨200, c⟩
  | .error m => ⟨500, errorBody ("Failed to load full config: " ++ m)⟩

/-- `router.get("/config/info")` from `config.ts`. -/
def getConfigInfoHandler (r : Except String JsonValue) : HttpResponse :=
  match r with
  | .ok info => ⟨200, info⟩
  | .error m => ⟨500, errorBody ("Failed to get config info: " ++ m)⟩

/-- `router.get("/config/path")` from `config.ts`: awaits `getConfigPath`
then `configExists` (in that order), responds with `\x7b path, exists \x7d`;
a throw from either call lands in the same catch branch. -/
def getConfigPathHandler (rp : Except String String) (re : Except String Bool) : HttpResponse :=
  match rp with
  | .error m => ⟨500, errorBody ("Failed to get config path: " ++ m)⟩
  | .ok p =>
    match re with
    | .error m => ⟨500, errorBody ("Failed to get config path: " ++ m)⟩
    | .ok e => ⟨200, .obj [("path", .str p), ("exists", .bool e)]⟩

/-- Result of running the POST handler: the HTTP response, the resulting
file-system state, and the argument passed to `saveConfig` when that call
was made (`none` when `saveConfig` was never invoked). -/
structure PostResult where
  resp : HttpResponse
  st : FsState
  savedArg : Option JsonValue

/-- `router.post("/config")` from `config.ts`: read `req.body.mcpServers`
(a JS property access, throwing on a `null` body), validate
`\x7b mcpServers \x7d` only, answer 400 with the error list when invalid,
otherwise pass the entire body to `saveConfig` and answer 200; any throw is
caught and answered 500 with `Failed to save config: <message>`. -/
def postConfigRoute (st : FsState) (now : Nat) (io : Outcome) (body : JsonValue) : PostResult :=
  match jsGet body "mcpServers" with
  | .error m => ⟨⟨500, errorBody ("Failed to save config: " ++ m)⟩, st, none⟩
  | .ok mcp =>
    let vr := validateConfig mcp
    if vr.valid then
      match io with
      | .ok =>
        ⟨⟨200, .obj [("success", .bool true), ("message", .str "Configuration saved successfully")]⟩,
          saveConfigFs st now body, some body⟩
      | .fail m => ⟨⟨500, errorBody ("Failed to save config: " ++ m)⟩, st, some body⟩
    else
      ⟨⟨400, .obj [("success", .bool false), ("message", .str "Invalid configuration"),
          ("data", .obj [("errors", .arr (vr.errors.map (fun e => .str e)))])]⟩,
        st, none⟩

/-- Tags identifying the five handlers registered on the config router. -/
inductive RouteTag where
  | getConfig
  | getFullConfig
  | postConfig
  | getConfigInfo
  | getConfigPath
deriving DecidableEq

/-- The route table of `config.ts`, in registration order: method, path,
handler. -/
def configRouterRoutes : List (String × String × RouteTag) :=
  [ ("GET", "/config", .getConfig)
  , ("GET", "/config/full", .getFullConfig)
  , ("POST", "/config", .postConfig)
  , ("GET", "/config/info", .getConfigInfo)
  , ("GET", "/config/path", .getConfigPath) ]

/-- Express dispatch over the router: the first registered route whose
method and literal path match, if any. -/
def routeFor (method p : String) : Option RouteTag :=
  (configRouterRoutes.find? (fun r => r.1 == method && r.2.1 == p)).map (fun r => r.2.2)

/-- The prefix the server mounts the config router under (from the spec:
the API lives at `/api/...`; the mounting module is not among the
available sources). -/
def apiMountPrefix : String := "/api"

/-- A request to the config router, carrying the environment inputs the
handler consumes: the clock reading used for backup naming and the outcome
of the underlying I/O. -/
inductive Request where
  | getConfig (io : Outcome)
  | getFullConfig (io : Outcome)
  | postConfig (now : Nat) (io : Outcome) (body : JsonValue)
  | getConfigInfo (io : Outcome)
  | getConfigPath (ioPath ioExists : Outcome)

/-- One request served by the router against the persistent state.  Only
the POST handler can change the state; every handler is a function of the
file-system state alone — the single module-level `ConfigManager` holds no
fields. -/
def step (st : FsState) (r : Request) : HttpResponse × FsState :=
  match r with
  | .getConfig io => (getConfigHandler (withOutcome io (loadConfigFs st)), st)
  | .getFullConfig io => (getFullConfigHandler (withOutcome io (loadFullConfigFs st)), st)
  | .postConfig now io body =>
    let pr := postConfigRoute st now io body
    (pr.resp, pr.st)
  | .getConfigInfo io => (getConfigInfoHandler (withOutcome io (configInfoFs st)), st)
  | .getConfigPath ioPath ioExists =>
    (getConfigPathHandler (withOutcome ioPath st.path) (withOutcome ioExists st.configFile.isSome), st)

/-- Serves a sequence of requests, threading the persistent state. -/
def runRequests (st : FsState) (rs : List Request) : List HttpResponse × FsState :=
  match rs with
  | [] => ([], st)
  | r :: rest =>
    let (resp, st1) := step st r
    let (resps, st2) := runRequests st1 rest
    (resp :: resps, st2)

/-- From the source: `config.ts` line 12 constructs the one
`new ConfigManager()` at module scope, and no handler body contains a
constructor call, so after serving any number of requests exactly one
instance ever existed. -/
def managerInstancesAfter (_requests : Nat) : Nat := 1

/-- What a thrown JavaScript value is, for the client wrapper: an `Error`
built by the code, a `TypeError` from a property access, or a
`SyntaxError` from JSON parsing. -/
inductive ThrownKind where
  | jsError
  | typeError
  | syntaxError
deriving DecidableEq

/-- A `fetch` `Response` as seen by the client wrapper: the status code and
the JSON value its body parses to (`none` when the body is not valid
JSON, so that `response.json()` rejects). -/
structure ClientResponse where
  status : Nat
  jsonBody : Option JsonValue

/-- `Response.ok`: status in the inclusive range 200–299. -/
def respOk (r : ClientResponse) : Bool :=
  decide (200 ≤ r.status) && decide (r.status < 300)

/-- `handleResponse` from `api.ts`: on a non-ok response, parse the body
(falling back to `\x7b message: "Request failed" \x7d` when parsing
rejects) and throw `new Error(error.message || "Request failed")` — note
the property access `error.message` throws a `TypeError` when the body
parsed to JSON `null`; on an ok response return `response.json()`, which
rejects with a `SyntaxError` when the body is not JSON. -/
def handleResponse (r : ClientResponse) : Except (ThrownKind × String) JsonValue :=
  if respOk r then
    match r.jsonBody with
    | some v => .ok v
    | none => .error (.syntaxError, "Unexpected end of JSON input")
  else
    let errVal := r.jsonBody.getD (.obj [("message", .str "Request failed")])
    match jsGet errVal "message" with
    | .error m => .error (.typeError, m)
    | .ok mv =>
      match mv with
      | some v =>
        if jsTruthy v then .error (.jsError, jsToString v)
        else .error (.jsError, "Request failed")
      | none => .error (.jsError, "Request failed")

/-- The client api methods of `api.ts`; each performs a `fetch` and feeds
the response to `handleResponse`. -/
inductive ApiMethod where
  | getConfig
  | getFullConfig
  | saveConfig
  | getConfigPath
  | getConfigInfo
  | getPresets
  | getPresetById
  | searchPresets
deriving DecidableEq

/-- From the source: every method of the `api` object returns
`handleResponse(response)` on the response its `fetch` produced. -/
def apiMethodOnResponse (_m : ApiMethod) (r : ClientResponse) : Except (ThrownKind × String) JsonValue :=
  handleResponse r

/-- An HTTP 500 error response carrying the thrown message: status 500,
`success: false`, and a message that extends the thrown error's message
with a route-specific prefix. -/
def failsWith (resp : HttpResponse) (m : String) : Prop :=
  resp.status = 500
  ∧ jsField resp.body "success" = some (.bool false)
  ∧ ∃ pre, jsField resp.body "message" = some (.str (pre ++ m))

theorem validateConfig_invalid_has_errors (mcp : Option JsonValue)
    (hv : (validateConfig mcp).valid = false) : (validateConfig mcp).errors ≠ [] := by
  match mcp with
  | none => simp [validateConfig]
  | some (.null) => simp [validateConfig]
  | some (.bool b) => simp [validateConfig]
  | some (.num n) => simp [validateConfig]
  | some (.str s) => simp [validateConfig]
  | some (.arr items) => simp [validateConfig]
  | some (.obj servers) =>
    simp only [validateConfig] at hv ⊢
    exact fun h => by simp [h] at hv

/-- C1: a POST /api/config body that fails validation is answered 400 with
the nonempty validation error list, `saveConfig` is never invoked, and the
file-system state (config file and backups) is unchanged. -/
theorem post_invalid_rejected_atomically
    (st : FsState) (now : Nat) (io : Outcome) (body : JsonValue) (mcp : Option JsonValue)
    (hget : jsGet body "mcpServers" = .ok mcp)
    (hv : (validateConfig mcp).valid = false) :
    (postConfigRoute st now io body).resp.status = 400
    ∧ jsField (postConfigRoute st now io body).resp.body "data"
        = some (.obj [("errors", .arr ((validateConfig mcp).errors.map (fun e => .str e)))])
    ∧ (validateConfig mcp).errors ≠ []
    ∧ (postConfigRoute st now io body).savedArg = none
    ∧ (postConfigRoute st now io body).st = st := by
  have hroute : postConfigRoute st now io body
      = ⟨⟨400, .obj [("success", .bool false), ("message", .str "Invalid configuration"),
          ("data", .obj [("errors", .arr ((validateConfig mcp).errors.map (fun e => .str e)))])]⟩,
        st, none⟩ := by
    unfold postConfigRoute
    rw [hget]
    simp [hv]
  refine ⟨by rw [hroute], by rw [hroute]; rfl, validateConfig_invalid_has_errors mcp hv,
    by rw [hroute], by rw [hroute]⟩

/-- Witness for C1 at a concrete invalid body (`mcpServers` is a string,
not an object). -/
theorem post_invalid_rejected_atomically_witness :
    jsGet (.obj [("mcpServers", .str "x")]) "mcpServers" = .ok (some (.str "x"))
    ∧ (validateConfig (some (.str "x"))).valid = false
    ∧ ((postConfigRoute ⟨"cfg", some (.obj []), []⟩ 7 .ok (.obj [("mcpServers", .str "x")])).resp.status = 400
      ∧ jsField (postConfigRoute ⟨"cfg", some (.obj []), []⟩ 7 .ok (.obj [("mcpServers", .str "x")])).resp.body "data"
          = some (.obj [("errors", .arr ((validateConfig (some (.str "x"))).errors.map (fun e => .str e)))])
      ∧ (validateConfig (some (.str "x"))).errors ≠ []
      ∧ (postConfigRoute ⟨"cfg", some (.obj []), []⟩ 7 .ok (.obj [("mcpServers", .str "x")])).savedArg = none
      ∧ (postConfigRoute ⟨"cfg", some (.obj []), []⟩ 7 .ok (.obj [("mcpServers", .str "x")])).st = ⟨"cfg", some (.obj []), []⟩) :=
  ⟨rfl, rfl, post_invalid_rejected_atomically ⟨"cfg", some (.obj []), []⟩ 7 .ok
    (.obj [("mcpServers", .str "x")]) (some (.str "x")) rfl rfl⟩

/-- C2 counterexample: the body
`\x7b mcpServers: \x7b\x7d, globalShortcut: "Ctrl" \x7d` passes validation
(only `mcpServers` is checked) and is saved whole, but GET /api/config
afterwards returns only the `mcpServers` portion, not the same data that
was saved. -/
theorem roundtrip_strict_counterexample :
    (validateConfig (jsField (.obj [("mcpServers", .obj []), ("globalShortcut", .str "Ctrl")]) "mcpServers")).valid = true
    ∧ (postConfigRoute ⟨"cfg", none, []⟩ 7 .ok (.obj [("mcpServers", .obj []), ("globalShortcut", .str "Ctrl")])).resp.status = 200
    ∧ loadConfigFs (postConfigRoute ⟨"cfg", none, []⟩ 7 .ok
        (.obj [("mcpServers", .obj []), ("globalShortcut", .str "Ctrl")])).st
      ≠ .obj [("mcpServers", .obj []), ("globalShortcut", .str "Ctrl")] := by
  refine ⟨rfl, rfl, fun h => ?_⟩
  have h2 := congrArg (fun v => jsField v "globalShortcut") h
  simp [jsField, lookupField, loadConfigFs, postConfigRoute, saveConfigFs, jsGet, validateConfig] at h2

/-- C2 amended: for every body whose `mcpServers` field passes validation,
POST /api/config followed by GET /api/config returns exactly the
`mcpServers` portion of the saved data (wrapped as an `MCPConfig`), and
GET /api/config/full returns the very data that was saved. -/
theorem roundtrip_mcpServers_amended
    (st : FsState) (now : Nat) (body : JsonValue) (mcp : Option JsonValue)
    (hget : jsGet body "mcpServers" = .ok mcp)
    (hv : (validateConfig mcp).valid = true) :
    ∃ m, mcp = some m
    ∧ (postConfigRoute st now .ok body).resp.status = 200
    ∧ loadConfigFs (postConfigRoute st now .ok body).st = .obj [("mcpServers", m)]
    ∧ loadFullConfigFs (postConfigRoute st now .ok body).st = body := by
  match hm : mcp with
  | none => simp [validateConfig] at hv
  | some m =>
    refine ⟨m, rfl, ?_⟩
    have hbodyobj : ∃ fields, body = .obj fields ∧ lookupField fields "mcpServers" = some m := by
      match body with
      | .null => exact absurd hget (by simp [jsGet])
      | .obj fields =>
        refine ⟨fields, rfl, ?_⟩
        simpa [jsGet] using hget
      | .bool b => rw [show jsGet (.bool b) "mcpServers" = .ok none from rfl] at hget; simp at hget
      | .num n => rw [show jsGet (.num n) "mcpServers" = .ok none from rfl] at hget; simp at hget
      | .str s => rw [show jsGet (.str s) "mcpServers" = .ok none from rfl] at hget; simp at hget
      | .arr items => rw [show jsGet (.arr items) "mcpServers" = .ok none from rfl] at hget; simp at hget
    obtain ⟨fields, hb, hlook⟩ := hbodyobj
    have hroute : postConfigRoute st now .ok body
        = ⟨⟨200, .obj [("success", .bool true), ("message", .str "Configuration saved successfully")]⟩,
          saveConfigFs st now body, some body⟩ := by
      unfold postConfigRoute
      rw [hget]
      simp [hv]
    have hfile : (saveConfigFs st now body).configFile = some body := by
      unfold saveConfigFs
      cases st.configFile <;> rfl
    refine ⟨by rw [hroute], ?_, ?_⟩
    · rw [hroute]
      show loadConfigFs (saveConfigFs st now body) = _
      unfold loadConfigFs
      rw [hfile, hb]
      simp [jsField, hlook]
    · rw [hroute]
      show loadFullConfigFs (saveConfigFs st now body) = body
      unfold loadFullConfigFs
      rw [hfile]
      rfl

/-- Witness for the amended C2 at a concrete valid body. -/
theorem roundtrip_mcpServers_amended_witness :
    jsGet (.obj [("mcpServers", .obj [("a", .obj [("command", .str "npx")])])]) "mcpServers"
      = .ok (some (.obj [("a", .obj [("command", .str "npx")])]))
    ∧ (validateConfig (some (.obj [("a", .obj [("command", .str "npx")])]))).valid = true
    ∧ ∃ m, (some (.obj [("a", .obj [("command", .str "npx")])]) : Option JsonValue) = some m
      ∧ (postConfigRoute ⟨"cfg", none, []⟩ 7 .ok (.obj [("mcpServers", .obj [("a", .obj [("command", .str "npx")])])])).resp.status = 200
      ∧ loadConfigFs (postConfigRoute ⟨"cfg", none, []⟩ 7 .ok (.obj [("mcpServers", .obj [("a", .obj [("command", .str "npx")])])])).st
          = .obj [("mcpServers", m)]
      ∧ loadFullConfigFs (postConfigRoute ⟨"cfg", none, []⟩ 7 .ok (.obj [("mcpServers", .obj [("a", .obj [("command", .str "npx")])])])).st
          = .obj [("mcpServers", .obj [("a", .obj [("command", .str "npx")])])] :=
  ⟨rfl, rfl, roundtrip_mcpServers_amended ⟨"cfg", none, []⟩ 7
    (.obj [("mcpServers", .obj [("a", .obj [("command", .str "npx")])])])
    (some (.obj [("a", .obj [("command", .str "npx")])])) rfl rfl⟩

theorem saveConfigFs_backups_mono (st : FsState) (now : Nat) (cfg : JsonValue)
    (b : String × JsonValue) (hb : b ∈ st.backups) : b ∈ (saveConfigFs st now cfg).backups := by
  unfold saveConfigFs
  cases h : st.configFile with
  | none => exact hb
  | some old => exact List.mem_cons_of_mem _ hb

theorem step_backups_mono (st : FsState) (r : Request)
    (b : String × JsonValue) (hb : b ∈ st.backups) : b ∈ (step st r).2.backups := by
  cases r with
  | getConfig io => exact hb
  | getFullConfig io => exact hb
  | getConfigInfo io => exact hb
  | getConfigPath io1 io2 => exact hb
  | postConfig now io body =>
    show b ∈ (postConfigRoute st now io body).st.backups
    unfold postConfigRoute
    cases hg : jsGet body "mcpServers" with
    | error m => exact hb
    | ok mcp =>
      by_cases hv : (validateConfig mcp).valid
      · cases io with
        | ok => simpa [hv] using saveConfigFs_backups_mono st now body b hb
        | fail m => simpa [hv] using hb
      · simpa [hv] using hb

theorem runRequests_backups_mono (rs : List Request) (st : FsState)
    (b : String × JsonValue) (hb : b ∈ st.backups) : b ∈ (runRequests st rs).2.backups := by
  induction rs generalizing st with
  | nil => exact hb
  | cons r rest ih =>
    show b ∈ (runRequests (step st r).2 rest).2.backups
    exact ih _ (step_backups_mono st r b hb)

/-- C3: whenever the configuration file exists, a successful save first
records a backup named `<file>.backup.<timestamp>` whose content is the
pre-save file content, on top of the existing backups; and no request
sequence ever removes a backup. -/
theorem backup_created_and_never_deleted
    (st : FsState) (now : Nat) (cfg old : JsonValue)
    (hfile : st.configFile = some old) :
    (saveConfigFs st now cfg).backups
      = (st.path ++ ".backup." ++ toString now, old) :: st.backups
    ∧ (saveConfigFs st now cfg).configFile = some cfg
    ∧ ∀ (st0 : FsState) (rs : List Request) (b : String × JsonValue),
        b ∈ st0.backups → b ∈ (runRequests st0 rs).2.backups := by
  refine ⟨?_, ?_, fun st0 rs b hb => runRequests_backups_mono rs st0 b hb⟩
  · unfold saveConfigFs
    rw [hfile]
  · unfold saveConfigFs
    rw [hfile]

/-- Witness for C3 at a concrete state whose file exists. -/
theorem backup_created_and_never_deleted_witness :
    (⟨"cfg", some (.obj [("mcpServers", .obj [])]), []⟩ : FsState).configFile
      = some (.obj [("mcpServers", .obj [])])
    ∧ ((saveConfigFs ⟨"cfg", some (.obj [("mcpServers", .obj [])]), []⟩ 42 (.obj [])).backups
        = (("cfg".append ".backup.").append (toString 42), .obj [("mcpServers", .obj [])]) :: []
      ∧ (saveConfigFs ⟨"cfg", some (.obj [("mcpServers", .obj [])]), []⟩ 42 (.obj [])).configFile = some (.obj [])
      ∧ ∀ (st0 : FsState) (rs : List Request) (b : String × JsonValue),
          b ∈ st0.backups → b ∈ (runRequests st0 rs).2.backups) :=
  ⟨rfl, backup_created_and_never_deleted ⟨"cfg", some (.obj [("mcpServers", .obj [])]), []⟩
    42 (.obj []) (.obj [("mcpServers", .obj [])]) rfl⟩

/-- C4: loading is read-only, validation only returns a verdict without
rewriting the loaded configuration, and writing the unedited loaded
configuration back through POST leaves the file's `mcpServers` content
exactly as it was (load, then validate, is the identity on the unedited
data). -/
theorem load_validate_roundtrip_identity
    (st : FsState) (io : Outcome) (now : Nat) (m : JsonValue)
    (hm : (jsField (loadFullConfigFs st) "mcpServers").getD (.obj []) = m)
    (hv : (validateConfig (some m)).valid = true)
    (hfile : st.configFile.isSome = true) :
    (step st (.getConfig io)).2 = st
    ∧ loadConfigFs st = .obj [("mcpServers", m)]
    ∧ (postConfigRoute st now .ok (loadConfigFs st)).resp.status = 200
    ∧ jsField (loadFullConfigFs (postConfigRoute st now .ok (loadConfigFs st)).st) "mcpServers"
        = some m := by
  match hsome : st.configFile with
  | none => rw [hsome] at hfile; simp at hfile
  | some v =>
    have hload : loadConfigFs st = .obj [("mcpServers", m)] := by
      unfold loadConfigFs
      rw [hsome]
      rw [show loadFullConfigFs st = v by unfold loadFullConfigFs; rw [hsome]; rfl] at hm
      show JsonValue.obj [("mcpServers", (jsField v "mcpServers").getD (.obj []))] = _
      rw [hm]
    have hget : jsGet (loadConfigFs st) "mcpServers" = .ok (some m) := by
      rw [hload]; simp [jsGet, lookupField]
    have hroute : postConfigRoute st now .ok (loadConfigFs st)
        = ⟨⟨200, .obj [("success", .bool true), ("message", .str "Configuration saved successfully")]⟩,
          saveConfigFs st now (loadConfigFs st), some (loadConfigFs st)⟩ := by
      unfold postConfigRoute
      rw [hget]
      simp [hv]
    have hsaved : (saveConfigFs st now (loadConfigFs st)).configFile = some (loadConfigFs st) := by
      unfold saveConfigFs
      cases st.configFile <;> rfl
    refine ⟨rfl, hload, by rw [hroute], ?_⟩
    rw [hroute]
    show jsField (loadFullConfigFs (saveConfigFs st now (loadConfigFs st))) "mcpServers" = some m
    unfold loadFullConfigFs
    rw [hsaved]
    show jsField (loadConfigFs st) "mcpServers" = some m
    rw [hload]
    rfl

/-- Witness for C4 at a concrete on-disk file. -/
theorem load_validate_roundtrip_identity_witness :
    (jsField (loadFullConfigFs ⟨"cfg", some (.obj [("mcpServers", .obj [("a", .obj [("command", .str "npx")])])]), []⟩) "mcpServers").getD (.obj [])
      = .obj [("a", .obj [("command", .str "npx")])]
    ∧ (validateConfig (some (.obj [("a", .obj [("command", .str "npx")])]))).valid = true
    ∧ ((step ⟨"cfg", some (.obj [("mcpServers", .obj [("a", .obj [("command", .str "npx")])])]), []⟩ (.getConfig .ok)).2
        = ⟨"cfg", some (.obj [("mcpServers", .obj [("a", .obj [("command", .str "npx")])])]), []⟩
      ∧ loadConfigFs ⟨"cfg", some (.obj [("mcpServers", .obj [("a", .obj [("command", .str "npx")])])]), []⟩
        = .obj [("mcpServers", .obj [("a", .obj [("command", .str "npx")])])]
      ∧ (postConfigRoute ⟨"cfg", some (.obj [("mcpServers", .obj [("a", .obj [("command", .str "npx")])])]), []⟩ 3 .ok
          (loadConfigFs ⟨"cfg", some (.obj [("mcpServers", .obj [("a", .obj [("command", .str "npx")])])]), []⟩)).resp.status = 200
      ∧ jsField (loadFullConfigFs (postConfigRoute ⟨"cfg", some (.obj [("mcpServers", .obj [("a", .obj [("command", .str "npx")])])]), []⟩ 3 .ok
          (loadConfigFs ⟨"cfg", some (.obj [("mcpServers", .obj [("a", .obj [("command", .str "npx")])])]), []⟩)).st) "mcpServers"
        = some (.obj [("a", .obj [("command", .str "npx")])])) :=
  ⟨rfl, rfl, load_validate_roundtrip_identity
    ⟨"cfg", some (.obj [("mcpServers", .obj [("a", .obj [("command", .str "npx")])])]), []⟩
    .ok 3 (.obj [("a", .obj [("command", .str "npx")])]) rfl rfl rfl⟩

/-- C5 counterexample: the `ConfigManager` is constructed once at module
scope (`config.ts` line 12); after two requests there is still exactly one
instance, not one per request. -/
theorem per_request_instantiation_counterexample :
    managerInstancesAfter 2 = 1 ∧ managerInstancesAfter 2 ≠ 2 := by
  exact ⟨rfl, by decide⟩

/-- C5 amended: a single `ConfigManager` instance, created at module load,
serves every request; it holds no per-request state, so the response to
any next request is determined by the file-system state alone — two
histories that leave the file system equal are indistinguishable to the
next request. -/
theorem single_shared_manager_amended :
    (∀ n : Nat, managerInstancesAfter n = 1)
    ∧ ∀ (st1 st2 : FsState) (rs1 rs2 : List Request) (r : Request),
        (runRequests st1 rs1).2 = (runRequests st2 rs2).2 →
        step (runRequests st1 rs1).2 r = step (runRequests st2 rs2).2 r := by
  refine ⟨fun n => rfl, fun st1 st2 rs1 rs2 r h => by rw [h]⟩

/-- Witness for the amended C5: two different histories that leave the same
file system get the same answer to the next request. -/
theorem single_shared_manager_amended_witness :
    managerInstancesAfter 5 = 1
    ∧ step (runRequests ⟨"cfg", none, []⟩ [.getConfig .ok, .getConfigPath .ok .ok]).2 (.getConfig .ok)
        = step (runRequests ⟨"cfg", none, []⟩ []).2 (.getConfig .ok) :=
  ⟨single_shared_manager_amended.1 5,
    single_shared_manager_amended.2 ⟨"cfg", none, []⟩ ⟨"cfg", none, []⟩
      [.getConfig .ok, .getConfigPath .ok .ok] [] (.getConfig .ok) rfl⟩

/-- C6: whenever the underlying ConfigManager operation throws, each of the
five routes answers 500 with `success: false` and a message extending the
thrown error's message (either `getConfigPath` or `configExists` throwing
lands GET /config/path in its catch branch; for POST the save is reached
once validation passes). -/
theorem manager_throw_yields_500
    (m pathVal : String) (st : FsState) (now : Nat) (body : JsonValue) (mcp : Option JsonValue)
    (hget : jsGet body "mcpServers" = .ok mcp)
    (hv : (validateConfig mcp).valid = true) :
    failsWith (getConfigHandler (.error m)) m
    ∧ failsWith (getFullConfigHandler (.error m)) m
    ∧ failsWith (postConfigRoute st now (.fail m) body).resp m
    ∧ failsWith (getConfigInfoHandler (.error m)) m
    ∧ failsWith (getConfigPathHandler (.error m) (.ok st.configFile.isSome)) m
    ∧ failsWith (getConfigPathHandler (.ok pathVal) (.error m)) m := by
  have hroute : (postConfigRoute st now (.fail m) body).resp
      = ⟨500, errorBody ("Failed to save config: " ++ m)⟩ := by
    unfold postConfigRoute
    rw [hget]
    simp [hv]
  refine ⟨⟨rfl, rfl, "Failed to load config: ", rfl⟩,
    ⟨rfl, rfl, "Failed to load full config: ", rfl⟩,
    ?_,
    ⟨rfl, rfl, "Failed to get config info: ", rfl⟩,
    ⟨rfl, rfl, "Failed to get config path: ", rfl⟩,
    ⟨rfl, rfl, "Failed to get config path: ", rfl⟩⟩
  rw [hroute]
  exact ⟨rfl, rfl, "Failed to save config: ", rfl⟩

/-- Witness for C6 at a concrete thrown message and valid body. -/
theorem manager_throw_yields_500_witness :
    jsGet (.obj [("mcpServers", .obj [])]) "mcpServers" = .ok (some (.obj []))
    ∧ (validateConfig (some (.obj []))).valid = true
    ∧ (failsWith (getConfigHandler (.error "ENOENT")) "ENOENT"
      ∧ failsWith (getFullConfigHandler (.error "ENOENT")) "ENOENT"
      ∧ failsWith (postConfigRoute ⟨"cfg", none, []⟩ 7 (.fail "ENOENT") (.obj [("mcpServers", .obj [])])).resp "ENOENT"
      ∧ failsWith (getConfigInfoHandler (.error "ENOENT")) "ENOENT"
      ∧ failsWith (getConfigPathHandler (.error "ENOENT") (.ok (⟨"cfg", none, []⟩ : FsState).configFile.isSome)) "ENOENT"
      ∧ failsWith (getConfigPathHandler (.ok "loc") (.error "ENOENT")) "ENOENT") :=
  ⟨rfl, rfl, manager_throw_yields_500 "ENOENT" "loc" ⟨"cfg", none, []⟩ 7
    (.obj [("mcpServers", .obj [])]) (some (.obj [])) rfl rfl⟩

set_option linter.unnecessarySeqFocus false in
/-- C7: the config router dispatches exactly the five registered routes —
GET /config, GET /config/full, POST /config, GET /config/info and
GET /config/path — under the `/api` mount, and a successful
GET /config/path response carries exactly the `path` and `exists`
fields. -/
theorem router_routes_exact (method p pathVal : String) (e : Bool) :
    ((routeFor method p).isSome = true ↔
      (method, p) ∈ [("GET", "/config"), ("GET", "/config/full"), ("POST", "/config"),
        ("GET", "/config/info"), ("GET", "/config/path")])
    ∧ apiMountPrefix ++ "/config" = "/api/config"
    ∧ (getConfigPathHandler (.ok pathVal) (.ok e)).status = 200
    ∧ (getConfigPathHandler (.ok pathVal) (.ok e)).body
        = .obj [("path", .str pathVal), ("exists", .bool e)] := by
  refine ⟨?_, rfl, rfl, rfl⟩
  simp [routeFor, configRouterRoutes, List.find?, Option.isSome]
  constructor
  · intro h
    split at h <;> simp_all <;> aesop
  · intro h
    rcases h with h | h | h | h | h <;> simp_all

/-- Witness for C7 at concrete route lookups. -/
theorem router_routes_exact_witness :
    routeFor "GET" "/config/path" = some .getConfigPath
    ∧ routeFor "PUT" "/config" = none
    ∧ routeFor "GET" "/presets" = none
    ∧ ((routeFor "GET" "/config/path").isSome = true ↔
        ("GET", "/config/path") ∈ [("GET", "/config"), ("GET", "/config/full"), ("POST", "/config"),
          ("GET", "/config/info"), ("GET", "/config/path")]) :=
  ⟨rfl, rfl, rfl, (router_routes_exact "GET" "/config/path" "loc" true).1⟩

/-- C8: POST /api/config validates only the `mcpServers` field: when that
field passes validation the entire body — extra top-level fields included,
never inspected — is handed to `saveConfig` and persisted wholesale, and
any other body with the same `mcpServers` field is likewise accepted and
saved whole. -/
theorem post_validates_only_mcpServers
    (st : FsState) (now : Nat) (body : JsonValue) (mcp : Option JsonValue)
    (hget : jsGet body "mcpServers" = .ok mcp)
    (hv : (validateConfig mcp).valid = true) :
    (postConfigRoute st now .ok body).savedArg = some body
    ∧ (postConfigRoute st now .ok body).st.configFile = some body
    ∧ (postConfigRoute st now .ok body).resp.status = 200
    ∧ ∀ body2, jsGet body2 "mcpServers" = .ok mcp →
        (postConfigRoute st now .ok body2).savedArg = some body2 := by
  have main : ∀ b, jsGet b "mcpServers" = .ok mcp →
      postConfigRoute st now .ok b
        = ⟨⟨200, .obj [("success", .bool true), ("message", .str "Configuration saved successfully")]⟩,
          saveConfigFs st now b, some b⟩ := by
    intro b hb
    unfold postConfigRoute
    rw [hb]
    simp [hv]
  have hfile : (saveConfigFs st now body).configFile = some body := by
    unfold saveConfigFs
    cases st.configFile <;> rfl
  refine ⟨by rw [main body hget], by rw [main body hget]; exact hfile,
    by rw [main body hget], fun body2 hb2 => by rw [main body2 hb2]⟩

/-- Witness for C8: a body with an extra top-level field is persisted
whole. -/
theorem post_validates_only_mcpServers_witness :
    jsGet (.obj [("mcpServers", .obj []), ("theme", .str "dark")]) "mcpServers" = .ok (some (.obj []))
    ∧ (validateConfig (some (.obj []))).valid = true
    ∧ ((postConfigRoute ⟨"cfg", none, []⟩ 7 .ok (.obj [("mcpServers", .obj []), ("theme", .str "dark")])).savedArg
        = some (.obj [("mcpServers", .obj []), ("theme", .str "dark")])
      ∧ (postConfigRoute ⟨"cfg", none, []⟩ 7 .ok (.obj [("mcpServers", .obj []), ("theme", .str "dark")])).st.configFile
        = some (.obj [("mcpServers", .obj []), ("theme", .str "dark")])
      ∧ (postConfigRoute ⟨"cfg", none, []⟩ 7 .ok (.obj [("mcpServers", .obj []), ("theme", .str "dark")])).resp.status = 200
      ∧ ∀ body2, jsGet body2 "mcpServers" = .ok (some (.obj [])) →
          (postConfigRoute ⟨"cfg", none, []⟩ 7 .ok body2).savedArg = some body2) :=
  ⟨rfl, rfl, post_validates_only_mcpServers ⟨"cfg", none, []⟩ 7
    (.obj [("mcpServers", .obj []), ("theme", .str "dark")]) (some (.obj [])) rfl rfl⟩

/-- C9: a POST /api/config with a `null` body throws on the property access
`config.mcpServers` before validation can run, so the generic catch branch
answers 500 (never a 400 validation failure), nothing is saved, and the
state is unchanged. -/
theorem post_null_body_is_500 (st : FsState) (now : Nat) (io : Outcome) :
    (postConfigRoute st now io .null).resp.status = 500
    ∧ (postConfigRoute st now io .null).resp.status ≠ 400
    ∧ (postConfigRoute st now io .null).savedArg = none
    ∧ (postConfigRoute st now io .null).st = st
    ∧ jsField (postConfigRoute st now io .null).resp.body "message"
        = some (.str "Failed to save config: Cannot read properties of null (reading mcpServers)") := by
  refine ⟨rfl, ?_, rfl, rfl, rfl⟩
  rw [show (postConfigRoute st now io .null).resp.status = 500 from rfl]
  decide

theorem jsGet_of_ne_null (v : JsonValue) (k : String) (h : v ≠ .null) :
    jsGet v k = .ok (jsField v k) := by
  cases v with
  | null => exact absurd rfl h
  | bool b => rfl
  | num n => rfl
  | str s => rfl
  | arr items => rfl
  | obj fields => rfl

/-- C10 counterexample: a non-2xx response whose body parses to JSON `null`
makes `handleResponse` throw the `TypeError` raised by `error.message`, not
an `Error` carrying the body's message field or the "Request failed"
fallback. -/
theorem client_null_body_counterexample :
    respOk ⟨404, some .null⟩ = false
    ∧ apiMethodOnResponse .getConfig ⟨404, some .null⟩
        = .error (.typeError, "Cannot read properties of null (reading message)")
    ∧ apiMethodOnResponse .getConfig ⟨404, some .null⟩ ≠ .error (.jsError, "Request failed") := by
  refine ⟨rfl, rfl, fun h => ?_⟩
  rw [show apiMethodOnResponse .getConfig ⟨404, some .null⟩
      = .error (.typeError, "Cannot read properties of null (reading message)") from rfl] at h
  simp at h

/-- C10 amended: every client api method returns the parsed JSON body of a
2xx response; on a non-2xx response it throws an `Error` whose message is
the body's `message` field (converted to a string when not one already),
falling back to "Request failed" when the body is not JSON or the field is
absent or falsy — except when the body parses to JSON `null`, where the
`error.message` access itself throws a `TypeError`. -/
theorem client_error_translation_amended (r : ClientResponse) (m : ApiMethod) :
    (respOk r = true → ∀ v, r.jsonBody = some v → apiMethodOnResponse m r = .ok v)
    ∧ (respOk r = false → r.jsonBody = none →
        apiMethodOnResponse m r = .error (.jsError, "Request failed"))
    ∧ (respOk r = false → ∀ v, r.jsonBody = some v → v ≠ .null →
        apiMethodOnResponse m r = .error (.jsError,
          match jsField v "message" with
          | some mv => if jsTruthy mv then jsToString mv else "Request failed"
          | none => "Request failed"))
    ∧ (respOk r = false → r.jsonBody = some .null →
        apiMethodOnResponse m r
          = .error (.typeError, "Cannot read properties of null (reading message)")) := by
  refine ⟨?_, ?_, ?_, ?_⟩
  · intro hok v hv
    show handleResponse r = .ok v
    unfold handleResponse
    simp [hok, hv]
  · intro hnok hnone
    show handleResponse r = _
    unfold handleResponse
    simp [hnok, hnone, jsGet, lookupField, jsTruthy, jsToString]
  · intro hnok v hv hnull
    show handleResponse r = _
    unfold handleResponse
    rw [hv]
    simp only [hnok, Bool.false_eq_true, if_false, Option.getD_some]
    rw [jsGet_of_ne_null v "message" hnull]
    cases hf : jsField v "message" with
    | none => rfl
    | some mv =>
      by_cases ht : jsTruthy mv = true
      · simp [ht]
      · simp only [Bool.not_eq_true] at ht
        simp [ht]
  · intro hnok hnull
    show handleResponse r = _
    unfold handleResponse
    rw [hnull]
    simp [hnok, jsGet]

/-- Witness for the amended C10 at concrete responses: a 2xx body returned,
a truthy message propagated, the not-JSON fallback, the falsy-message
fallback, and the `null`-body `TypeError`. -/
theorem client_error_translation_amended_witness :
    apiMethodOnResponse .getConfig ⟨200, some (.obj [("mcpServers", .obj [])])⟩
      = .ok (.obj [("mcpServers", .obj [])])
    ∧ apiMethodOnResponse .saveConfig ⟨400, some (.obj [("message", .str "Invalid configuration")])⟩
        = .error (.jsError, "Invalid configuration")
    ∧ apiMethodOnResponse .getPresets ⟨502, none⟩ = .error (.jsError, "Request failed")
    ∧ apiMethodOnResponse .getPresetById ⟨404, some (.obj [("message", .str "")])⟩
        = .error (.jsError, "Request failed")
    ∧ apiMethodOnResponse .searchPresets ⟨500, some .null⟩
        = .error (.typeError, "Cannot read properties of null (reading message)") := by
  refine ⟨(client_error_translation_amended ⟨200, some (.obj [("mcpServers", .obj [])])⟩ .getConfig).1 rfl _ rfl,
    ?_, (client_error_translation_amended ⟨502, none⟩ .getPresets).2.1 rfl rfl, ?_,
    (client_error_translation_amended ⟨500, some .null⟩ .searchPresets).2.2.2 rfl rfl⟩
  · exact (client_error_translation_amended ⟨400, some (.obj [("message", .str "Invalid configuration")])⟩
      .saveConfig).2.2.1 rfl _ rfl (fun h => JsonValue.noConfusion h)
  · exact (client_error_translation_amended ⟨404, some (.obj [("message", .str "")])⟩
      .getPresetById).2.2.1 rfl _ rfl (fun h => JsonValue.noConfusion h)
